import Mathlib

/-!
# Verification of the `types-not-docs` pipeline

A shallow embedding of the `types-not-docs` TypeScript documentation
generator: the documentation model (`src/types.ts`), the declaration
extractor and comment resolver (`src/parser.ts`), the markdown renderer
(`src/generator.ts`), and the driver loop of `src/cli.ts`.  The AST nodes
consumed by the extractor are modelled as plain records carrying exactly
the observations the source queries through ts-morph (export status,
attached JSDoc blocks, rendered type text, optional markers, initializer
kind).  Theorems below settle the specification claims against these
definitions.
-/

namespace TypesNotDocs

/-! ## JSDoc model (the shape observed through ts-morph) -/

/-- A JSDoc tag as observed by the parser: tag name, whether ts-morph
classifies it as a parameter tag, the declared (parameter) name, and the
optional comment text. -/
structure JsDocTag where
  tagName : String
  isParamTag : Bool
  name : String
  commentText : Option String
deriving DecidableEq, Repr

/-- A JSDoc block: free-text description plus tags. -/
structure JSDoc where
  description : Option String
  tags : List JsDocTag
deriving DecidableEq, Repr

/-! ## Documentation model (`src/types.ts`) -/

/-- A property of an interface (`ParsedProperty`). -/
structure ParsedProperty where
  name : String
  type : String
  required : Bool
  description : Option String
deriving DecidableEq, Repr

/-- A parsed interface (`ParsedInterface`). -/
structure ParsedInterface where
  kind : String
  name : String
  description : Option String
  properties : List ParsedProperty
  «extends» : Option (List String)
deriving DecidableEq, Repr

/-- A parsed type alias (`ParsedTypeAlias`). -/
structure ParsedTypeAlias where
  kind : String
  name : String
  type : String
  description : Option String
deriving DecidableEq, Repr

/-- A function parameter (`ParsedParameter`). -/
structure ParsedParameter where
  name : String
  type : String
  required : Bool
  description : Option String
deriving DecidableEq, Repr

/-- A parsed exported function (`ParsedFunction`). -/
structure ParsedFunction where
  kind : String
  name : String
  description : Option String
  parameters : List ParsedParameter
  returnType : String
  isAsync : Bool
deriving DecidableEq, Repr

/-- All extracted types from a single source file (`ParsedFile`). -/
structure ParsedFile where
  filePath : String
  interfaces : List ParsedInterface
  typeAliases : List ParsedTypeAlias
  functions : List ParsedFunction
deriving DecidableEq, Repr

/-! ## Comment resolver (`src/parser.ts`, JSDoc utilities) -/

/-- JS `String.prototype.trim`: drop whitespace from both ends (modelled
character-wise). -/
def jsTrim (s : String) : String :=
  String.mk (((s.data.dropWhile Char.isWhitespace).reverse.dropWhile
    Char.isWhitespace).reverse)

/-- `getJsDocDescriptionFromDocs`: use the last JSDoc block; return its
trimmed description, or `none` when there are no blocks, the description
is missing, or it trims to the empty string. -/
def getJsDocDescriptionFromDocs (jsDocs : List JSDoc) : Option String :=
  match jsDocs.getLast? with
  | none => none
  | some jsDoc =>
    match jsDoc.description with
    | none => none
    | some s => if jsTrim s = "" then none else some (jsTrim s)

/-- The replacement `comment.replace(/^-\s*/, "")`: drop one leading
hyphen together with the whitespace run that follows it. -/
def stripLeadingDash (s : String) : String :=
  match s.data with
  | '-' :: rest => String.mk (rest.dropWhile Char.isWhitespace)
  | _ => s

/-- `Map.set` on an insertion-ordered association list: replace the value
of an existing key, otherwise append the new entry. -/
def mapSet (m : List (String × String)) (k v : String) : List (String × String) :=
  match m with
  | [] => [(k, v)]
  | (k', v') :: rest => if k' = k then (k, v) :: rest else (k', v') :: mapSet rest k v

/-- `Map.get` on the association-list model of a JS `Map`. -/
def mapGet (m : List (String × String)) (k : String) : Option String :=
  match m with
  | [] => none
  | (k', v') :: rest => if k' = k then some v' else mapGet rest k

/-- Body of the tag loop of `extractParamDescriptions`: record a tag when
it is a `@param` tag with a non-empty dot-free name and non-empty trimmed
comment text, stripping a leading dash from the comment. -/
def extractFromTags (m : List (String × String)) : List JsDocTag → List (String × String)
  | [] => m
  | tag :: rest =>
    extractFromTags
      (if tag.tagName = "param" ∧ tag.isParamTag = true then
        match tag.commentText with
        | some raw =>
          if tag.name ≠ "" ∧ tag.name.data.contains '.' = false ∧ jsTrim raw ≠ "" then
            mapSet m tag.name (stripLeadingDash (jsTrim raw))
          else m
        | none => m
      else m) rest

/-- `extractParamDescriptions`: build the parameter-description map from
the tags of the last JSDoc block (empty when there is no block). -/
def extractParamDescriptions (jsDocs : List JSDoc) : List (String × String) :=
  match jsDocs.getLast? with
  | none => []
  | some jsDoc => extractFromTags [] jsDoc.tags

/-! ## AST model

Plain records carrying exactly the observations `src/parser.ts` makes on
ts-morph nodes: export status, attached JSDoc blocks, rendered type
texts, optional markers, async markers, and initializer kinds.  A source
file is a list of top-level statements in source order; ts-morph getters
(`getInterfaces`, `getFunctions`, `getVariableDeclarations`, ...) return
the matching declarations in that order. -/

/-- A parameter declaration as observed by the parser. -/
structure ParamDecl where
  name : String
  typeText : String
  isOptional : Bool
  hasInit : Bool
deriving DecidableEq, Repr

/-- An arrow-function expression node. -/
structure ArrowFunctionNode where
  params : List ParamDecl
  returnType : String
  isAsync : Bool
deriving DecidableEq, Repr

/-- The initializer of a variable declaration, classified the way
`Node.isArrowFunction` distinguishes it: an arrow function, some other
(anonymous) function expression, some other expression, or absent. -/
inductive Initializer where
  | arrow (a : ArrowFunctionNode)
  | funcExpr
  | otherExpr
  | noInit
deriving DecidableEq, Repr

/-- One variable declaration inside a variable statement. -/
structure VarDeclNode where
  name : String
  init : Initializer
deriving DecidableEq, Repr

/-- A top-level variable statement (carries the export modifier and the
JSDoc blocks; the declarations it binds are listed in source order). -/
structure VariableStatementNode where
  isExported : Bool
  jsDocs : List JSDoc
  decls : List VarDeclNode
deriving DecidableEq, Repr

/-- A top-level function declaration node. -/
structure FunctionDeclNode where
  name : Option String
  isExported : Bool
  jsDocs : List JSDoc
  params : List ParamDecl
  returnType : String
  isAsync : Bool
deriving DecidableEq, Repr

/-- A property signature inside an interface. -/
structure PropertySigNode where
  name : String
  typeText : String
  hasQuestionToken : Bool
  jsDocs : List JSDoc
deriving DecidableEq, Repr

/-- A method signature inside an interface; `params` pairs each
parameter name with its rendered type text. -/
structure MethodSigNode where
  name : String
  params : List (String × String)
  returnType : String
  hasQuestionToken : Bool
  jsDocs : List JSDoc
deriving DecidableEq, Repr

/-- A top-level interface declaration node. -/
structure InterfaceDeclNode where
  name : String
  isExported : Bool
  jsDocs : List JSDoc
  properties : List PropertySigNode
  methods : List MethodSigNode
  extendsTexts : List String
deriving DecidableEq, Repr

/-- A top-level type-alias declaration node. -/
structure TypeAliasDeclNode where
  name : String
  isExported : Bool
  jsDocs : List JSDoc
  typeText : String
deriving DecidableEq, Repr

/-- A top-level statement of a source file. -/
inductive TopLevelStmt where
  | interfaceDecl (d : InterfaceDeclNode)
  | typeAliasDecl (d : TypeAliasDeclNode)
  | functionDecl (d : FunctionDeclNode)
  | variableStatement (s : VariableStatementNode)
  | otherStmt
deriving DecidableEq, Repr

/-- A source file: its path and its top-level statements in source
order. -/
structure SourceFileNode where
  filePath : String
  statements : List TopLevelStmt
deriving DecidableEq, Repr

/-- `sourceFile.getInterfaces()`: interface declarations in source
order. -/
def getInterfaces (sf : SourceFileNode) : List InterfaceDeclNode :=
  sf.statements.filterMap (fun st =>
    match st with
    | TopLevelStmt.interfaceDecl d => some d
    | _ => none)

/-- `sourceFile.getTypeAliases()`: type-alias declarations in source
order. -/
def getTypeAliases (sf : SourceFileNode) : List TypeAliasDeclNode :=
  sf.statements.filterMap (fun st =>
    match st with
    | TopLevelStmt.typeAliasDecl d => some d
    | _ => none)

/-- `sourceFile.getFunctions()`: function declarations in source order. -/
def getFunctions (sf : SourceFileNode) : List FunctionDeclNode :=
  sf.statements.filterMap (fun st =>
    match st with
    | TopLevelStmt.functionDecl d => some d
    | _ => none)

/-- `sourceFile.getVariableDeclarations()`: every variable declaration in
source order, paired with its enclosing variable statement (the parser
reaches the statement through `varDecl.getVariableStatement()`). -/
def getVariableDeclarations (sf : SourceFileNode) :
    List (VariableStatementNode × VarDeclNode) :=
  (sf.statements.filterMap (fun st =>
    match st with
    | TopLevelStmt.variableStatement s => some s
    | _ => none)).flatMap (fun s => s.decls.map (fun d => (s, d)))

/-! ## Declaration extractor (`src/parser.ts`) -/

/-- `getJsDocDescription(node)`: resolve the description from the node's
own JSDoc blocks. -/
def getJsDocDescription (jsDocs : List JSDoc) : Option String :=
  getJsDocDescriptionFromDocs jsDocs

/-- `parseProperties`: the regular properties, then the method
signatures rendered as function-typed properties. -/
def parseProperties (iface : InterfaceDeclNode) : List ParsedProperty :=
  iface.properties.map (fun prop =>
    { name := prop.name
      type := prop.typeText
      required := !prop.hasQuestionToken
      description := getJsDocDescription prop.jsDocs })
  ++ iface.methods.map (fun method =>
    { name := method.name
      type := "(" ++ String.intercalate ", "
          (method.params.map (fun p => p.1 ++ ": " ++ p.2)) ++ ") => " ++ method.returnType
      required := !method.hasQuestionToken
      description := getJsDocDescription method.jsDocs })

/-- `getExtendsClause`: the literal texts of the extends clause, or
`none` when the clause is empty. -/
def getExtendsClause (iface : InterfaceDeclNode) : Option (List String) :=
  if iface.extendsTexts.length = 0 then none else some iface.extendsTexts

/-- `parseInterfaces`: the exported interfaces, converted. -/
def parseInterfaces (sf : SourceFileNode) : List ParsedInterface :=
  ((getInterfaces sf).filter (fun iface => iface.isExported)).map (fun iface =>
    { kind := "interface"
      name := iface.name
      description := getJsDocDescription iface.jsDocs
      properties := parseProperties iface
      «extends» := getExtendsClause iface })

/-- `parseTypeAliases`: the exported type aliases, converted. -/
def parseTypeAliases (sf : SourceFileNode) : List ParsedTypeAlias :=
  ((getTypeAliases sf).filter (fun ta => ta.isExported)).map (fun ta =>
    { kind := "type"
      name := ta.name
      type := ta.typeText
      description := getJsDocDescription ta.jsDocs })

/-- The JS expression `fn.getName() || "anonymous"`. -/
def resolveFunctionName (name : Option String) : String :=
  match name with
  | some n => if n = "" then "anonymous" else n
  | none => "anonymous"

/-- `parseParameters`: convert parameter declarations, pairing each with
its description from the parameter-description map. -/
def parseParameters (params : List ParamDecl)
    (paramDescriptions : List (String × String)) : List ParsedParameter :=
  params.map (fun param =>
    { name := param.name
      type := param.typeText
      required := !param.isOptional && !param.hasInit
      description := mapGet paramDescriptions param.name })

/-- `parseFunctionDeclaration`. -/
def parseFunctionDeclaration (fn : FunctionDeclNode) : ParsedFunction :=
  let paramDescriptions := extractParamDescriptions fn.jsDocs
  { kind := "function"
    name := resolveFunctionName fn.name
    description := getJsDocDescription fn.jsDocs
    parameters := parseParameters fn.params paramDescriptions
    returnType := fn.returnType
    isAsync := fn.isAsync }

/-- `parseArrowFunction`: the JSDoc blocks live on the variable
statement, not the arrow function itself. -/
def parseArrowFunction (varStatement : VariableStatementNode)
    (varDecl : VarDeclNode) (arrowFn : ArrowFunctionNode) : ParsedFunction :=
  let jsDocs := varStatement.jsDocs
  let paramDescriptions := extractParamDescriptions jsDocs
  { kind := "function"
    name := varDecl.name
    description := getJsDocDescriptionFromDocs jsDocs
    parameters := parseParameters arrowFn.params paramDescriptions
    returnType := arrowFn.returnType
    isAsync := arrowFn.isAsync }

/-- `parseFunctions`: first the exported function declarations, then the
arrow functions bound by exported variable statements. -/
def parseFunctions (sf : SourceFileNode) : List ParsedFunction :=
  ((getFunctions sf).filter (fun fn => fn.isExported)).map parseFunctionDeclaration
  ++ (getVariableDeclarations sf).filterMap (fun sd =>
    if sd.1.isExported then
      match sd.2.init with
      | Initializer.arrow a => some (parseArrowFunction sd.1 sd.2 a)
      | _ => none
    else none)

/-- `parseFile`. -/
def parseFile (sf : SourceFileNode) : ParsedFile :=
  { filePath := sf.filePath
    interfaces := parseInterfaces sf
    typeAliases := parseTypeAliases sf
    functions := parseFunctions sf }

/-! ## Markdown generator (`src/generator.ts`) -/

/-- Options of `generateMarkdown`; `title` defaults to
`"API Reference"`. -/
structure GeneratorOptions where
  title : Option String := none
deriving DecidableEq, Repr

/-- `path.basename` on POSIX paths: the component after the last
separator. -/
def basename (p : String) : String :=
  String.mk ((p.data.reverse.takeWhile (fun c => !(c == '/'))).reverse)

/-- `escapeMarkdown`: escape pipe characters for table cells. -/
def escapeMarkdown (text : String) : String :=
  String.mk (text.data.flatMap (fun c => if c = '|' then ['\\', '|'] else [c]))

/-- Whether a character may stay in an anchor: it matches `[a-z0-9]`. -/
def isAnchorChar (c : Char) : Bool :=
  ('a' ≤ c && c ≤ 'z') || ('0' ≤ c && c ≤ '9')

/-- The replacement `/[^a-z0-9]+/g → "-"`: walk the characters, keep the
anchor characters, and emit a single hyphen for each maximal run of
other characters (`inRun` records that the current run already produced
its hyphen). -/
def sanitizeAux (inRun : Bool) : List Char → List Char
  | [] => []
  | c :: cs =>
    if isAnchorChar c then c :: sanitizeAux false cs
    else if inRun then sanitizeAux true cs
    else '-' :: sanitizeAux true cs

/-- `toAnchor`: lower-case the name (`.toLowerCase()`, character-wise),
then replace every maximal run of characters outside `[a-z0-9]` with a
single hyphen. -/
def toAnchor (name : String) : String :=
  String.mk (sanitizeAux false (name.data.map Char.toLower))

/-- Loop body of `findDuplicateNames`: `seen` and `duplicates` model the
two insertion-ordered JS `Set`s. -/
def findDuplicateNamesAux (seen duplicates : List String) :
    List String → List String
  | [] => duplicates
  | name :: rest =>
    let duplicates' :=
      if name ∈ seen then
        (if name ∈ duplicates then duplicates else duplicates ++ [name])
      else duplicates
    let seen' := if name ∈ seen then seen else seen ++ [name]
    findDuplicateNamesAux seen' duplicates' rest

/-- `findDuplicateNames`: the names that appear more than once. -/
def findDuplicateNames (names : List String) : List String :=
  findDuplicateNamesAux [] [] names

/-- `getDisplayName`: append the source file for duplicated names. -/
def getDisplayName (name sourceFile : String) (duplicates : List String) : String :=
  if name ∈ duplicates then name ++ " (" ++ sourceFile ++ ")" else name

/-- `getAnchor`: anchor of the possibly file-suffixed name. -/
def getAnchor (name sourceFile : String) (duplicates : List String) : String :=
  if name ∈ duplicates then toAnchor (name ++ "-" ++ sourceFile) else toAnchor name

/-- A table-of-contents entry for an interface or type alias. -/
def tocLinkLine (name sourceFile : String) (duplicates : List String) : String :=
  "- [" ++ getDisplayName name sourceFile duplicates ++ "](#"
    ++ getAnchor name sourceFile duplicates ++ ")"

/-- A table-of-contents entry for a function (display name followed by
`()`). -/
def tocFunctionLinkLine (name sourceFile : String) (duplicates : List String) : String :=
  "- [" ++ getDisplayName name sourceFile duplicates ++ "()](#"
    ++ getAnchor name sourceFile duplicates ++ ")"

/-- `generatePropertiesTable`. -/
def generatePropertiesTable (properties : List ParsedProperty) : List String :=
  ["| Property | Type | Required | Description |",
   "|----------|------|----------|-------------|"]
  ++ properties.map (fun prop =>
    let required := if prop.required then "✓" else ""
    let description := prop.description.getD ""
    let type := escapeMarkdown prop.type
    "| " ++ prop.name ++ " | `" ++ type ++ "` | " ++ required ++ " | " ++ description ++ " |")

/-- `generateParametersTable`. -/
def generateParametersTable (parameters : List ParsedParameter) : List String :=
  ["| Name | Type | Required | Description |",
   "|------|------|----------|-------------|"]
  ++ parameters.map (fun param =>
    let required := if param.required then "✓" else ""
    let description := param.description.getD ""
    let type := escapeMarkdown param.type
    "| " ++ param.name ++ " | `" ++ type ++ "` | " ++ required ++ " | " ++ description ++ " |")

/-- `generateInterface`. -/
def generateInterface (iface : ParsedInterface) (sourceFile : String)
    (duplicates : List String) : List String :=
  let displayName := getDisplayName iface.name sourceFile duplicates
  ["## " ++ displayName, ""]
  ++ (match iface.«extends» with
    | some es =>
      if es.length > 0 then ["*Extends: " ++ String.intercalate ", " es ++ "*", ""] else []
    | none => [])
  ++ (match iface.description with
    | some d => [d, ""]
    | none => [])
  ++ (if iface.properties.length > 0 then generatePropertiesTable iface.properties
      else ["*No properties*"])
  ++ ["", "---"]

/-- `generateTypeAlias`. -/
def generateTypeAlias (ta : ParsedTypeAlias) (sourceFile : String)
    (duplicates : List String) : List String :=
  let displayName := getDisplayName ta.name sourceFile duplicates
  ["## " ++ displayName, ""]
  ++ (match ta.description with
    | some d => [d, ""]
    | none => [])
  ++ ["```typescript", "type " ++ ta.name ++ " = " ++ ta.type, "```", "", "---"]

/-- `generateFunction`. -/
def generateFunction (fn : ParsedFunction) (sourceFile : String)
    (duplicates : List String) : List String :=
  let displayName := getDisplayName fn.name sourceFile duplicates
  let asyncMarker := if fn.isAsync then "async " else ""
  let params := fn.parameters.map (fun p =>
    let opt := if p.required then "" else "?"
    p.name ++ opt ++ ": " ++ p.type)
  let signature :=
    asyncMarker ++ "function " ++ fn.name ++ "(" ++ String.intercalate ", " params
      ++ "): " ++ fn.returnType
  ["## " ++ displayName ++ "()", ""]
  ++ (match fn.description with
    | some d => [d, ""]
    | none => [])
  ++ ["```typescript", signature, "```", ""]
  ++ (if fn.parameters.length > 0 then
      ["**Parameters:**", ""] ++ generateParametersTable fn.parameters ++ [""]
      else [])
  ++ ["**Returns:** `" ++ escapeMarkdown fn.returnType ++ "`", "", "---"]

/-- The pooled interfaces with their source-file base names (the
`allInterfaces` accumulation of `generateMarkdown`). -/
def allInterfacesOf (files : List ParsedFile) : List (ParsedInterface × String) :=
  files.flatMap (fun file => file.interfaces.map (fun i => (i, basename file.filePath)))

/-- The pooled type aliases with their source-file base names. -/
def allTypeAliasesOf (files : List ParsedFile) : List (ParsedTypeAlias × String) :=
  files.flatMap (fun file => file.typeAliases.map (fun t => (t, basename file.filePath)))

/-- The pooled functions with their source-file base names. -/
def allFunctionsOf (files : List ParsedFile) : List (ParsedFunction × String) :=
  files.flatMap (fun file => file.functions.map (fun f => (f, basename file.filePath)))

/-- The duplicate-name set of `generateMarkdown`: interfaces, type
aliases and functions pooled together. -/
def duplicateNamesOf (files : List ParsedFile) : List String :=
  findDuplicateNames
    ((allInterfacesOf files).map (fun i => i.1.name)
      ++ (allTypeAliasesOf files).map (fun t => t.1.name)
      ++ (allFunctionsOf files).map (fun f => f.1.name))

/-- The `lines` list that `generateMarkdown` builds before joining. -/
def generateMarkdownLines (files : List ParsedFile) (options : GeneratorOptions) :
    List String :=
  let title := options.title.getD "API Reference"
  let allInterfaces := allInterfacesOf files
  let allTypeAliases := allTypeAliasesOf files
  let allFunctions := allFunctionsOf files
  let duplicateNames := duplicateNamesOf files
  ["# " ++ title, ""]
  ++ (if allInterfaces.length + allTypeAliases.length + allFunctions.length > 0 then
      ["## Table of Contents", ""]
      ++ (if allInterfaces.length > 0 then
          ["### Interfaces", ""]
          ++ allInterfaces.map (fun p => tocLinkLine p.1.name p.2 duplicateNames) ++ [""]
          else [])
      ++ (if allTypeAliases.length > 0 then
          ["### Types", ""]
          ++ allTypeAliases.map (fun p => tocLinkLine p.1.name p.2 duplicateNames) ++ [""]
          else [])
      ++ (if allFunctions.length > 0 then
          ["### Functions", ""]
          ++ allFunctions.map (fun p => tocFunctionLinkLine p.1.name p.2 duplicateNames) ++ [""]
          else [])
      ++ ["---", ""]
      else [])
  ++ allInterfaces.flatMap (fun p => generateInterface p.1 p.2 duplicateNames ++ [""])
  ++ allTypeAliases.flatMap (fun p => generateTypeAlias p.1 p.2 duplicateNames ++ [""])
  ++ allFunctions.flatMap (fun p => generateFunction p.1 p.2 duplicateNames ++ [""])

/-- `generateMarkdown`: the lines joined with newlines. -/
def generateMarkdown (files : List ParsedFile) (options : GeneratorOptions) : String :=
  String.intercalate "\n" (generateMarkdownLines files options)

/-! ## CLI driver loop (`src/cli.ts`, function `run`)

Parsing a file either succeeds with a `ParsedFile` or throws; the
per-file outcome is an input here (`Except.error msg` models a throw
caught by the loop's `try`/`catch`). -/

/-- The condition under which `run` keeps a parsed file: it has at least
one exported interface, type alias or function. -/
def contributesItems (p : ParsedFile) : Prop :=
  0 < p.interfaces.length ∨ 0 < p.typeAliases.length ∨ 0 < p.functions.length

instance (p : ParsedFile) : Decidable (contributesItems p) := by
  unfold contributesItems
  infer_instance

/-- The `parsedFiles` accumulation of `run`: parse failures are skipped,
and a file that parsed but contributed nothing is dropped. -/
def extractedFiles (results : List (Except String ParsedFile)) : List ParsedFile :=
  results.foldl (fun acc r =>
    match r with
    | Except.ok parsed => if contributesItems parsed then acc ++ [parsed] else acc
    | Except.error _ => acc) []

/-- The warnings `run` prints: one per file whose parse threw. -/
def extractionWarnings (results : List (Except String ParsedFile)) : List String :=
  results.foldl (fun acc r =>
    match r with
    | Except.ok _ => acc
    | Except.error msg => acc ++ ["Warning: Failed to parse: " ++ msg]) []

/-- The tail of `run`: throw `EmptyResult` when no file contributed,
otherwise render. -/
def runPipeline (results : List (Except String ParsedFile)) (title : String) :
    Except String String :=
  let parsedFiles := extractedFiles results
  if parsedFiles.length = 0 then Except.error "No exported types found in any files"
  else Except.ok (generateMarkdown parsedFiles { title := some title })

/-! ## Specification-side definitions

Reformulations that follow the wording of the specification; the
theorems below compare them with the code-side definitions above. -/

/-- Number of occurrences of a name in a list (the spec speaks of "a
name occurring more than once"). -/
def occurrenceCount (n : String) : List String → Nat
  | [] => 0
  | m :: rest => (if m = n then 1 else 0) + occurrenceCount n rest

/-- Spec order: the names of the exported interface declarations, in
source declaration order. -/
def sourceExportedInterfaceNames : List TopLevelStmt → List String
  | [] => []
  | TopLevelStmt.interfaceDecl d :: rest =>
    if d.isExported then d.name :: sourceExportedInterfaceNames rest
    else sourceExportedInterfaceNames rest
  | _ :: rest => sourceExportedInterfaceNames rest

/-- Spec order: the names of the exported type-alias declarations, in
source declaration order. -/
def sourceExportedTypeAliasNames : List TopLevelStmt → List String
  | [] => []
  | TopLevelStmt.typeAliasDecl d :: rest =>
    if d.isExported then d.name :: sourceExportedTypeAliasNames rest
    else sourceExportedTypeAliasNames rest
  | _ :: rest => sourceExportedTypeAliasNames rest

/-- Spec order: the resolved names of the exported function
declarations, in source declaration order. -/
def sourceExportedFunctionDeclNames : List TopLevelStmt → List String
  | [] => []
  | TopLevelStmt.functionDecl d :: rest =>
    if d.isExported then resolveFunctionName d.name :: sourceExportedFunctionDeclNames rest
    else sourceExportedFunctionDeclNames rest
  | _ :: rest => sourceExportedFunctionDeclNames rest

/-- Spec order: the binding names of arrow functions bound by exported
variable statements, in source declaration order. -/
def sourceExportedArrowBindingNames : List TopLevelStmt → List String
  | [] => []
  | TopLevelStmt.variableStatement s :: rest =>
    (if s.isExported then
      s.decls.filterMap (fun d =>
        match d.init with
        | Initializer.arrow _ => some d.name
        | _ => none)
      else [])
    ++ sourceExportedArrowBindingNames rest
  | _ :: rest => sourceExportedArrowBindingNames rest

/-- Spec condition on a JSDoc tag for entering the parameter-description
map: a parameter tag with a non-empty dot-free name and comment text
that is non-empty after trimming. -/
def qualifiesParamTag (t : JsDocTag) : Prop :=
  t.tagName = "param" ∧ t.isParamTag = true ∧ t.name ≠ "" ∧
    t.name.data.contains '.' = false ∧ (jsTrim (t.commentText.getD "") ≠ "")

instance (t : JsDocTag) : Decidable (qualifiesParamTag t) := by
  unfold qualifiesParamTag
  infer_instance

/-- The value the spec says is stored for a qualifying tag: the trimmed
comment text with a leading hyphen (and the whitespace following it)
stripped. -/
def tagStoredValue (t : JsDocTag) : String :=
  stripLeadingDash (jsTrim (t.commentText.getD ""))

/-- The value of the last qualifying tag named `k`, if any. -/
def lastQualifyingValue (k : String) : List JsDocTag → Option String
  | [] => none
  | t :: rest =>
    match lastQualifyingValue k rest with
    | some v => some v
    | none =>
      if qualifiesParamTag t ∧ t.name = k then some (tagStoredValue t) else none

/-- No two adjacent hyphens in a character list. -/
def noDoubleHyphen : List Char → Bool
  | [] => true
  | [_] => true
  | a :: b :: rest => !(a == '-' && b == '-') && noDoubleHyphen (b :: rest)

/-! ## Helper lemmas -/

theorem occurrenceCount_pos_iff_mem (n : String) (l : List String) :
    1 ≤ occurrenceCount n l ↔ n ∈ l := by
  induction l with
  | nil => simp [occurrenceCount]
  | cons m rest ih =>
    by_cases h : m = n
    · subst h
      simp [occurrenceCount, Nat.succ_le_iff]
    · simp [occurrenceCount, h, ih, Ne.symm h]

theorem mem_findDuplicateNamesAux (names : List String) :
    ∀ (seen duplicates : List String) (n : String),
      n ∈ findDuplicateNamesAux seen duplicates names ↔
        n ∈ duplicates ∨ (n ∈ seen ∧ n ∈ names) ∨ 2 ≤ occurrenceCount n names := by
  induction names with
  | nil => intro seen duplicates n; simp [findDuplicateNamesAux, occurrenceCount]
  | cons name rest ih =>
    intro seen duplicates n
    by_cases hseen : name ∈ seen
    · by_cases hdup : name ∈ duplicates
      · rw [show findDuplicateNamesAux seen duplicates (name :: rest)
            = findDuplicateNamesAux seen duplicates rest by
          simp [findDuplicateNamesAux, hseen, hdup]]
        rw [ih]
        by_cases hn : name = n
        · subst hn
          simp [hseen, hdup, occurrenceCount]
        · simp [List.mem_cons, Ne.symm hn, occurrenceCount, hn]
      · rw [show findDuplicateNamesAux seen duplicates (name :: rest)
            = findDuplicateNamesAux seen (duplicates ++ [name]) rest by
          simp [findDuplicateNamesAux, hseen, hdup]]
        rw [ih]
        by_cases hn : name = n
        · subst hn
          simp [hseen, occurrenceCount]
        · simp [List.mem_append, List.mem_cons, Ne.symm hn, occurrenceCount, hn]
    · rw [show findDuplicateNamesAux seen duplicates (name :: rest)
          = findDuplicateNamesAux (seen ++ [name]) duplicates rest by
        simp [findDuplicateNamesAux, hseen]]
      rw [ih]
      by_cases hn : name = n
      · subst hn
        have hmem := occurrenceCount_pos_iff_mem name rest
        have hcount : occurrenceCount name (name :: rest)
            = 1 + occurrenceCount name rest := by
          simp [occurrenceCount]
        rw [hcount]
        constructor
        · rintro (h | ⟨hs, hr⟩ | h)
          · exact Or.inl h
          · have h1 : 1 ≤ occurrenceCount name rest := hmem.mpr hr
            right; right; omega
          · right; right; omega
        · rintro (h | ⟨hs, _⟩ | h)
          · exact Or.inl h
          · exact absurd hs hseen
          · have h1 : 1 ≤ occurrenceCount name rest := by omega
            right; left
            exact ⟨List.mem_append.mpr (Or.inr (List.mem_singleton.mpr rfl)),
              hmem.mp h1⟩
      · simp [List.mem_append, List.mem_cons, Ne.symm hn, occurrenceCount, hn]

theorem mem_findDuplicateNames (names : List String) (n : String) :
    n ∈ findDuplicateNames names ↔ 2 ≤ occurrenceCount n names := by
  rw [findDuplicateNames, mem_findDuplicateNamesAux]
  simp

theorem interfaces_names_aux (stmts : List TopLevelStmt) :
    ((stmts.filterMap (fun st =>
        match st with
        | TopLevelStmt.interfaceDecl d => some d
        | _ => none)).filter (fun i => i.isExported)).map (fun i => i.name)
      = sourceExportedInterfaceNames stmts := by
  induction stmts with
  | nil => simp [sourceExportedInterfaceNames]
  | cons st rest ih =>
    cases st with
    | interfaceDecl d =>
      by_cases h : d.isExported = true
      · simp [sourceExportedInterfaceNames, List.filterMap_cons, List.filter_cons, h, ih]
      · simp [sourceExportedInterfaceNames, List.filterMap_cons, List.filter_cons, h, ih]
    | typeAliasDecl d => simp [sourceExportedInterfaceNames, List.filterMap_cons, ih]
    | functionDecl d => simp [sourceExportedInterfaceNames, List.filterMap_cons, ih]
    | variableStatement s => simp [sourceExportedInterfaceNames, List.filterMap_cons, ih]
    | otherStmt => simp [sourceExportedInterfaceNames, List.filterMap_cons, ih]

theorem parseInterfaces_map_name (sf : SourceFileNode) :
    (parseInterfaces sf).map (fun i => i.name) = sourceExportedInterfaceNames sf.statements := by
  unfold parseInterfaces getInterfaces
  rw [List.map_map]
  exact interfaces_names_aux sf.statements

theorem typeAliases_names_aux (stmts : List TopLevelStmt) :
    ((stmts.filterMap (fun st =>
        match st with
        | TopLevelStmt.typeAliasDecl d => some d
        | _ => none)).filter (fun t => t.isExported)).map (fun t => t.name)
      = sourceExportedTypeAliasNames stmts := by
  induction stmts with
  | nil => simp [sourceExportedTypeAliasNames]
  | cons st rest ih =>
    cases st with
    | interfaceDecl d => simp [sourceExportedTypeAliasNames, List.filterMap_cons, ih]
    | typeAliasDecl d =>
      by_cases h : d.isExported = true
      · simp [sourceExportedTypeAliasNames, List.filterMap_cons, List.filter_cons, h, ih]
      · simp [sourceExportedTypeAliasNames, List.filterMap_cons, List.filter_cons, h, ih]
    | functionDecl d => simp [sourceExportedTypeAliasNames, List.filterMap_cons, ih]
    | variableStatement s => simp [sourceExportedTypeAliasNames, List.filterMap_cons, ih]
    | otherStmt => simp [sourceExportedTypeAliasNames, List.filterMap_cons, ih]

theorem parseTypeAliases_map_name (sf : SourceFileNode) :
    (parseTypeAliases sf).map (fun t => t.name) = sourceExportedTypeAliasNames sf.statements := by
  unfold parseTypeAliases getTypeAliases
  rw [List.map_map]
  exact typeAliases_names_aux sf.statements

theorem functionDecls_names_aux (stmts : List TopLevelStmt) :
    ((stmts.filterMap (fun st =>
        match st with
        | TopLevelStmt.functionDecl d => some d
        | _ => none)).filter (fun f => f.isExported)).map
          (fun d => resolveFunctionName d.name)
      = sourceExportedFunctionDeclNames stmts := by
  induction stmts with
  | nil => simp [sourceExportedFunctionDeclNames]
  | cons st rest ih =>
    cases st with
    | interfaceDecl d => simp [sourceExportedFunctionDeclNames, List.filterMap_cons, ih]
    | typeAliasDecl d => simp [sourceExportedFunctionDeclNames, List.filterMap_cons, ih]
    | functionDecl d =>
      by_cases h : d.isExported = true
      · simp [sourceExportedFunctionDeclNames, List.filterMap_cons, List.filter_cons, h, ih]
      · simp [sourceExportedFunctionDeclNames, List.filterMap_cons, List.filter_cons, h, ih]
    | variableStatement s => simp [sourceExportedFunctionDeclNames, List.filterMap_cons, ih]
    | otherStmt => simp [sourceExportedFunctionDeclNames, List.filterMap_cons, ih]

theorem arrow_names_inner (s : VariableStatementNode) (decls : List VarDeclNode) :
    (decls.filterMap (fun d =>
        if s.isExported then
          match d.init with
          | Initializer.arrow a => some (parseArrowFunction s d a)
          | _ => none
        else none)).map (fun f => f.name)
      = if s.isExported then
          decls.filterMap (fun d =>
            match d.init with
            | Initializer.arrow _ => some d.name
            | _ => none)
        else [] := by
  induction decls with
  | nil => cases hexp : s.isExported <;> simp [hexp]
  | cons d rest ih =>
    by_cases hexp : s.isExported = true
    · cases hinit : d.init <;>
        simp [List.filterMap_cons, hexp, hinit, parseArrowFunction] <;>
        simpa [hexp] using ih
    · have hexp' : s.isExported = false := by
        cases h : s.isExported
        · rfl
        · exact absurd h hexp
      simp [List.filterMap_cons, hexp', ih]

theorem arrow_names_aux (stmts : List TopLevelStmt) :
    (((stmts.filterMap (fun st =>
        match st with
        | TopLevelStmt.variableStatement s => some s
        | _ => none)).flatMap (fun s => s.decls.map (fun d => (s, d)))).filterMap (fun sd =>
          if sd.1.isExported then
            match sd.2.init with
            | Initializer.arrow a => some (parseArrowFunction sd.1 sd.2 a)
            | _ => none
          else none)).map (fun f => f.name)
      = sourceExportedArrowBindingNames stmts := by
  induction stmts with
  | nil => simp [sourceExportedArrowBindingNames]
  | cons st rest ih =>
    cases st with
    | interfaceDecl d => simp [sourceExportedArrowBindingNames, List.filterMap_cons, ih]
    | typeAliasDecl d => simp [sourceExportedArrowBindingNames, List.filterMap_cons, ih]
    | functionDecl d => simp [sourceExportedArrowBindingNames, List.filterMap_cons, ih]
    | variableStatement s =>
      rw [List.filterMap_cons]
      simp only [List.flatMap_cons, List.filterMap_append, List.map_append,
        List.filterMap_map]
      rw [show sourceExportedArrowBindingNames (TopLevelStmt.variableStatement s :: rest)
          = (if s.isExported then
              s.decls.filterMap (fun d =>
                match d.init with
                | Initializer.arrow _ => some d.name
                | _ => none)
            else []) ++ sourceExportedArrowBindingNames rest from rfl]
      exact congrArg₂ (· ++ ·) (arrow_names_inner s s.decls) ih
    | otherStmt => simp [sourceExportedArrowBindingNames, List.filterMap_cons, ih]

theorem mapGet_mapSet (m : List (String × String)) (k v k' : String) :
    mapGet (mapSet m k v) k' = if k = k' then some v else mapGet m k' := by
  induction m with
  | nil => simp [mapSet, mapGet]
  | cons p rest ih =>
    obtain ⟨k0, v0⟩ := p
    by_cases h0 : k0 = k
    · subst h0
      by_cases h1 : k0 = k' <;> simp [mapSet, mapGet, h1]
    · by_cases h1 : k0 = k'
      · subst h1
        have h2 : ¬ (k = k0) := fun h => h0 h.symm
        simp [mapSet, mapGet, h0, h2]
      · simp [mapSet, mapGet, h0, h1, ih]

theorem extractFromTags_get (tags : List JsDocTag) :
    ∀ (m : List (String × String)) (k : String),
      mapGet (extractFromTags m tags) k
        = match lastQualifyingValue k tags with
          | some v => some v
          | none => mapGet m k := by
  induction tags with
  | nil => intro m k; simp [extractFromTags, lastQualifyingValue]
  | cons t rest ih =>
    intro m k
    rw [show extractFromTags m (t :: rest)
        = extractFromTags
          (if t.tagName = "param" ∧ t.isParamTag = true then
            match t.commentText with
            | some raw =>
              if t.name ≠ "" ∧ t.name.data.contains '.' = false ∧ jsTrim raw ≠ "" then
                mapSet m t.name (stripLeadingDash (jsTrim raw))
              else m
            | none => m
          else m) rest from rfl]
    rw [ih]
    cases hrest : lastQualifyingValue k rest with
    | some v => simp [lastQualifyingValue, hrest]
    | none =>
      simp only [lastQualifyingValue, hrest]
      by_cases hq : qualifiesParamTag t
      · have hqt := hq
        obtain ⟨h1, h2, h3, h4, h5⟩ := hq
        obtain ⟨raw, hct⟩ : ∃ raw, t.commentText = some raw := by
          cases hcc : t.commentText with
          | none =>
            rw [hcc] at h5
            simp [jsTrim] at h5
          | some raw => exact ⟨raw, rfl⟩
        rw [hct] at h5
        simp only [Option.getD_some] at h5
        have hval : tagStoredValue t = stripLeadingDash (jsTrim raw) := by
          simp [tagStoredValue, hct]
        rw [hct, if_pos (show t.tagName = "param" ∧ t.isParamTag = true from ⟨h1, h2⟩)]
        show mapGet (if t.name ≠ "" ∧ t.name.data.contains '.' = false ∧ jsTrim raw ≠ ""
          then mapSet m t.name (stripLeadingDash (jsTrim raw)) else m) k = _
        rw [if_pos (show t.name ≠ "" ∧ t.name.data.contains '.' = false
          ∧ jsTrim raw ≠ "" from ⟨h3, h4, h5⟩)]
        rw [mapGet_mapSet]
        by_cases hk : t.name = k
        · rw [if_pos hk, if_pos (show qualifiesParamTag t ∧ t.name = k from ⟨hqt, hk⟩)]
          simp [hval]
        · rw [if_neg hk, if_neg (show ¬ (qualifiesParamTag t ∧ t.name = k) from
            fun hc => hk hc.2)]
      · by_cases hpt : t.tagName = "param" ∧ t.isParamTag = true
        · cases hct : t.commentText with
          | none => simp [hpt, hq]
          | some raw =>
            have hinner : ¬ (t.name ≠ "" ∧ t.name.data.contains '.' = false
                ∧ jsTrim raw ≠ "") := by
              intro ⟨h3, h4, h5⟩
              exact hq ⟨hpt.1, hpt.2, h3, h4, by rw [hct]; exact h5⟩
            rw [if_pos hpt]
            show mapGet (if t.name ≠ "" ∧ t.name.data.contains '.' = false
              ∧ jsTrim raw ≠ ""
              then mapSet m t.name (stripLeadingDash (jsTrim raw)) else m) k = _
            rw [if_neg hinner,
              if_neg (show ¬ (qualifiesParamTag t ∧ t.name = k) from fun hc => hq hc.1)]
        · simp [hpt, hq]

theorem lastQualifyingValue_isSome (k : String) (tags : List JsDocTag) :
    (lastQualifyingValue k tags).isSome = true
      ↔ ∃ t ∈ tags, qualifiesParamTag t ∧ t.name = k := by
  induction tags with
  | nil => simp [lastQualifyingValue]
  | cons t rest ih =>
    rw [lastQualifyingValue]
    cases hrest : lastQualifyingValue k rest with
    | some v =>
      simp only [Option.isSome_some, true_iff]
      have : ∃ t ∈ rest, qualifiesParamTag t ∧ t.name = k := by
        rw [← ih, hrest]
        rfl
      obtain ⟨t', ht', hq'⟩ := this
      exact ⟨t', List.mem_cons_of_mem t ht', hq'⟩
    | none =>
      rw [hrest] at ih
      simp only [Option.isSome_none, Bool.false_eq_true, false_iff] at ih
      by_cases hq : qualifiesParamTag t ∧ t.name = k
      · simp only [if_pos hq, Option.isSome_some, true_iff]
        exact ⟨t, List.mem_cons_self t rest, hq⟩
      · simp only [if_neg hq, Option.isSome_none, Bool.false_eq_true, false_iff]
        intro ⟨t', ht', hq'⟩
        rcases List.mem_cons.mp ht' with h | h
        · subst h; exact hq hq'
        · exact ih ⟨t', h, hq'⟩

theorem extractParamDescriptions_last (jsDocs : List JSDoc) (d : JSDoc) (k : String) :
    mapGet (extractParamDescriptions (jsDocs ++ [d])) k = lastQualifyingValue k d.tags := by
  rw [extractParamDescriptions, List.getLast?_concat]
  rw [extractFromTags_get d.tags [] k]
  cases h : lastQualifyingValue k d.tags <;> simp [mapGet]

theorem isAnchorChar_ne_hyphen (c : Char) (h : isAnchorChar c = true) : c ≠ '-' := by
  intro he
  subst he
  exact absurd h (by decide)

theorem noDoubleHyphen_cons (a : Char) (l : List Char) :
    noDoubleHyphen (a :: l) = true ↔
      (∀ b, l.head? = some b → ¬(a = '-' ∧ b = '-')) ∧ noDoubleHyphen l = true := by
  cases l with
  | nil => simp [noDoubleHyphen]
  | cons b rest =>
    show (!(a == '-' && b == '-') && noDoubleHyphen (b :: rest)) = true ↔ _
    constructor
    · intro h
      obtain ⟨h1, h2⟩ := Bool.and_eq_true_iff.mp h
      refine ⟨?_, h2⟩
      intro b' hb' ⟨ha, hb⟩
      have : b = b' := by simpa using hb'
      subst this
      subst ha
      subst hb
      simp at h1
    · intro ⟨h1, h2⟩
      rw [Bool.and_eq_true_iff]
      refine ⟨?_, h2⟩
      by_cases ha : a = '-'
      · by_cases hb : b = '-'
        · exact absurd ⟨ha, hb⟩ (h1 b rfl)
        · simp [ha, hb]
      · simp [ha]

theorem sanitizeAux_shape (l : List Char) :
    ∀ b : Bool, noDoubleHyphen (sanitizeAux b l) = true
      ∧ (b = true → (sanitizeAux b l).head? ≠ some '-') := by
  induction l with
  | nil => intro b; simp [sanitizeAux, noDoubleHyphen]
  | cons c cs ih =>
    intro b
    by_cases hc : isAnchorChar c = true
    · rw [show sanitizeAux b (c :: cs) = c :: sanitizeAux false cs by
        simp [sanitizeAux, hc]]
      constructor
      · rw [noDoubleHyphen_cons]
        refine ⟨?_, (ih false).1⟩
        intro b' hb' ⟨hcdash, _⟩
        exact isAnchorChar_ne_hyphen c hc hcdash
      · intro _ hhead
        have : c = '-' := by simpa using hhead
        exact isAnchorChar_ne_hyphen c hc this
    · cases b with
      | true =>
        rw [show sanitizeAux true (c :: cs) = sanitizeAux true cs by
          simp [sanitizeAux, hc]]
        refine ⟨(ih true).1, fun _ => ?_⟩
        exact (ih true).2 rfl
      | false =>
        rw [show sanitizeAux false (c :: cs) = '-' :: sanitizeAux true cs by
          simp [sanitizeAux, hc]]
        constructor
        · rw [noDoubleHyphen_cons]
          refine ⟨?_, (ih true).1⟩
          intro b' hb' ⟨_, hbdash⟩
          exact (ih true).2 rfl (by rw [hb', hbdash])
        · intro hfalse
          cases hfalse

theorem sanitizeAux_chars (l : List Char) :
    ∀ b : Bool, ∀ c ∈ sanitizeAux b l, isAnchorChar c = true ∨ c = '-' := by
  induction l with
  | nil => intro b c hc; simp [sanitizeAux] at hc
  | cons d cs ih =>
    intro b c hc
    by_cases hd : isAnchorChar d = true
    · rw [show sanitizeAux b (d :: cs) = d :: sanitizeAux false cs by
        simp [sanitizeAux, hd]] at hc
      rcases List.mem_cons.mp hc with h | h
      · subst h; exact Or.inl hd
      · exact ih false c h
    · cases b with
      | true =>
        rw [show sanitizeAux true (d :: cs) = sanitizeAux true cs by
          simp [sanitizeAux, hd]] at hc
        exact ih true c hc
      | false =>
        rw [show sanitizeAux false (d :: cs) = '-' :: sanitizeAux true cs by
          simp [sanitizeAux, hd]] at hc
        rcases List.mem_cons.mp hc with h | h
        · subst h; exact Or.inr rfl
        · exact ih true c h

theorem displayName_suffix_inj (name b1 b2 : String) :
    name ++ " (" ++ b1 ++ ")" = name ++ " (" ++ b2 ++ ")" ↔ b1 = b2 := by
  constructor
  · intro h
    have hd := congrArg String.data h
    simp only [String.data_append] at hd
    have hd1 : (name.data ++ " (".data) ++ b1.data = (name.data ++ " (".data) ++ b2.data :=
      List.append_cancel_right hd
    have hd2 : b1.data = b2.data := List.append_cancel_left hd1
    cases b1
    cases b2
    exact congrArg String.mk (by simpa using hd2)
  · intro h; rw [h]

theorem parseFunctions_map_name (sf : SourceFileNode) :
    (parseFunctions sf).map (fun f => f.name)
      = sourceExportedFunctionDeclNames sf.statements
        ++ sourceExportedArrowBindingNames sf.statements := by
  unfold parseFunctions getFunctions getVariableDeclarations
  rw [List.map_append, List.map_map]
  rw [show ((fun f : ParsedFunction => f.name) ∘ parseFunctionDeclaration)
      = (fun d => resolveFunctionName d.name) from rfl]
  rw [functionDecls_names_aux sf.statements, arrow_names_aux sf.statements]

theorem extractedFiles_foldl_general (results : List (Except String ParsedFile)) :
    ∀ acc : List ParsedFile,
      results.foldl (fun acc r =>
        match r with
        | Except.ok parsed => if contributesItems parsed then acc ++ [parsed] else acc
        | Except.error _ => acc) acc
      = acc ++ results.filterMap (fun r =>
        match r with
        | Except.ok parsed => if contributesItems parsed then some parsed else none
        | Except.error _ => none) := by
  induction results with
  | nil => intro acc; simp
  | cons r rest ih =>
    intro acc
    cases r with
    | ok p =>
      by_cases hp : contributesItems p <;>
        simp [List.foldl_cons, List.filterMap_cons, hp, ih, List.append_assoc]
    | error e => simp [List.foldl_cons, List.filterMap_cons, ih]

theorem extractedFiles_eq_filterMap (results : List (Except String ParsedFile)) :
    extractedFiles results = results.filterMap (fun r =>
      match r with
      | Except.ok parsed => if contributesItems parsed then some parsed else none
      | Except.error _ => none) := by
  rw [extractedFiles, extractedFiles_foldl_general]
  simp

theorem extractionWarnings_foldl_general (results : List (Except String ParsedFile)) :
    ∀ acc : List String,
      results.foldl (fun acc r =>
        match r with
        | Except.ok _ => acc
        | Except.error msg => acc ++ ["Warning: Failed to parse: " ++ msg]) acc
      = acc ++ results.filterMap (fun r =>
        match r with
        | Except.ok _ => none
        | Except.error msg => some ("Warning: Failed to parse: " ++ msg)) := by
  induction results with
  | nil => intro acc; simp
  | cons r rest ih =>
    intro acc
    cases r with
    | ok p => simp [List.foldl_cons, List.filterMap_cons, ih]
    | error e => simp [List.foldl_cons, List.filterMap_cons, ih, List.append_assoc]

theorem extractionWarnings_eq_filterMap (results : List (Except String ParsedFile)) :
    extractionWarnings results = results.filterMap (fun r =>
      match r with
      | Except.ok _ => none
      | Except.error msg => some ("Warning: Failed to parse: " ++ msg)) := by
  rw [extractionWarnings, extractionWarnings_foldl_general]
  simp

theorem extractedFiles_drop_error (pre post : List (Except String ParsedFile))
    (msg : String) :
    extractedFiles (pre ++ [Except.error msg] ++ post) = extractedFiles (pre ++ post) := by
  simp [extractedFiles_eq_filterMap, List.filterMap_append, List.filterMap_cons]

theorem extractedFiles_drop_empty (pre post : List (Except String ParsedFile))
    (p : ParsedFile) (h : ¬ contributesItems p) :
    extractedFiles (pre ++ [Except.ok p] ++ post) = extractedFiles (pre ++ post) := by
  simp [extractedFiles_eq_filterMap, List.filterMap_append, List.filterMap_cons, h]

theorem extractionWarnings_split (pre post : List (Except String ParsedFile))
    (msg : String) :
    extractionWarnings (pre ++ [Except.error msg] ++ post)
      = extractionWarnings pre ++ ["Warning: Failed to parse: " ++ msg]
        ++ extractionWarnings post := by
  simp [extractionWarnings_eq_filterMap, List.filterMap_append, List.filterMap_cons]

theorem runPipeline_error_iff (results : List (Except String ParsedFile))
    (title : String) :
    (∃ e, runPipeline results title = Except.error e) ↔
      ∀ r ∈ results, ∀ p, r = Except.ok p → ¬ contributesItems p := by
  rw [runPipeline]
  by_cases h : (extractedFiles results).length = 0
  · rw [if_pos h]
    simp only [Except.error.injEq, exists_eq', true_iff]
    intro r hr p hp hcontrib
    rw [extractedFiles_eq_filterMap] at h
    rw [List.length_eq_zero] at h
    have hmem : p ∈ results.filterMap (fun r =>
        match r with
        | Except.ok parsed => if contributesItems parsed then some parsed else none
        | Except.error _ => none) :=
      List.mem_filterMap.mpr ⟨Except.ok p, hp ▸ hr, by simp [hcontrib]⟩
    rw [h] at hmem
    simp at hmem
  · rw [if_neg h]
    simp only [reduceCtorEq, exists_false, false_iff]
    intro hall
    apply h
    rw [extractedFiles_eq_filterMap, List.length_eq_zero, List.filterMap_eq_nil_iff]
    intro r hr
    cases r with
    | ok p =>
      have := hall (Except.ok p) hr p rfl
      simp [this]
    | error e => simp

/-! ## Example inputs used by counterexamples and witnesses -/

/-- A source file declaring an exported arrow binding `a` before an
exported function declaration `b`. -/
def arrowBeforeFnFile : SourceFileNode :=
  { filePath := "ex.ts"
    statements :=
      [TopLevelStmt.variableStatement
        { isExported := true
          jsDocs := []
          decls := [{ name := "a"
                      init := Initializer.arrow
                        { params := [], returnType := "void", isAsync := false } }] },
       TopLevelStmt.functionDecl
        { name := some "b", isExported := true, jsDocs := [], params := []
          returnType := "void", isAsync := false }] }

/-- A source file whose only statement binds an exported variable `g` to
an anonymous function expression (not an arrow function). -/
def funcExprVarFile : SourceFileNode :=
  { filePath := "fe.ts"
    statements :=
      [TopLevelStmt.variableStatement
        { isExported := true
          jsDocs := []
          decls := [{ name := "g", init := Initializer.funcExpr }] }] }

/-- An arrow-function node used in the C2 witness. -/
def c2Arrow : ArrowFunctionNode :=
  { params := [], returnType := "void", isAsync := false }

/-- The variable declaration binding the C2 witness arrow function. -/
def c2VarDecl : VarDeclNode :=
  { name := "f", init := Initializer.arrow c2Arrow }

/-- The exported variable statement of the C2 witness. -/
def c2VarStmt : VariableStatementNode :=
  { isExported := true, jsDocs := [], decls := [c2VarDecl] }

/-- The source file of the C2 witness. -/
def c2File : SourceFileNode :=
  { filePath := "c2.ts", statements := [TopLevelStmt.variableStatement c2VarStmt] }

/-- A parsed function named `f` with no parameters. -/
def c3Fn : ParsedFunction :=
  { kind := "function", name := "f", description := none, parameters := []
    returnType := "void", isAsync := false }

/-- A parsed file containing only the function `f`. -/
def c3File : ParsedFile :=
  { filePath := "a.ts", interfaces := [], typeAliases := [], functions := [c3Fn] }

/-- An empty parsed interface named `Config`. -/
def configIface : ParsedInterface :=
  { kind := "interface", name := "Config", description := none, properties := []
    «extends» := none }

/-- `a/config.ts` exporting `Config`. -/
def c4FileA : ParsedFile :=
  { filePath := "a/config.ts", interfaces := [configIface], typeAliases := []
    functions := [] }

/-- `b/config.ts` exporting `Config`: a different file with the same base
name. -/
def c4FileB : ParsedFile :=
  { filePath := "b/config.ts", interfaces := [configIface], typeAliases := []
    functions := [] }

/-- Two files `a.ts` and `b.ts`, each exporting an interface `Config`. -/
def c5FilesTwo : List ParsedFile :=
  [{ filePath := "a.ts", interfaces := [configIface], typeAliases := [], functions := [] },
   { filePath := "b.ts", interfaces := [configIface], typeAliases := [], functions := [] }]

/-- A single file `a.ts` exporting `Config` alone. -/
def c5FilesOne : List ParsedFile :=
  [{ filePath := "a.ts", interfaces := [configIface], typeAliases := [], functions := [] }]

/-- A JSDoc block whose only tag is `@param x -count`. -/
def c9Doc : JSDoc :=
  { description := none
    tags := [{ tagName := "param", isParamTag := true, name := "x"
               commentText := some "-count" }] }

/-- A parsed file with no exported items. -/
def c10Empty : ParsedFile :=
  { filePath := "empty.ts", interfaces := [], typeAliases := [], functions := [] }

/-- A parsed file contributing one type alias. -/
def c10Full : ParsedFile :=
  { filePath := "full.ts", interfaces := []
    typeAliases := [{ kind := "type", name := "Id", type := "string", description := none }]
    functions := [] }

/-! ## Claim theorems -/

/-- C1 counterexample: in `arrowBeforeFnFile` the exported arrow binding
`a` precedes the exported function declaration `b` in the source, yet
`parseFunctions` lists `b` before `a` (function declarations are
collected in a first loop, arrow bindings in a second), so the functions
list does not follow source declaration order. -/
theorem C1_counterexample :
    (parseFunctions arrowBeforeFnFile).map (fun f => f.name) = ["b", "a"]
    ∧ ["b", "a"] ≠ ["a", "b"] := by decide

/-- C1 (amended): within a `ParsedFile`, the interfaces and type-alias
lists preserve source declaration order; the functions list consists of
all exported function declarations in source order followed by all
exported arrow-function bindings in source order — so an arrow binding
that precedes a function declaration in the source appears after it. -/
theorem C1_parsedFile_order (sf : SourceFileNode) :
    (parseInterfaces sf).map (fun i => i.name) = sourceExportedInterfaceNames sf.statements
    ∧ (parseTypeAliases sf).map (fun t => t.name)
        = sourceExportedTypeAliasNames sf.statements
    ∧ (parseFunctions sf).map (fun f => f.name)
        = sourceExportedFunctionDeclNames sf.statements
          ++ sourceExportedArrowBindingNames sf.statements :=
  ⟨parseInterfaces_map_name sf, parseTypeAliases_map_name sf, parseFunctions_map_name sf⟩

/-- C2 counterexample: the exported variable `g` of `funcExprVarFile` is
bound to an anonymous function expression that is not an arrow function;
`parseFunctions` produces nothing for it (only `Node.isArrowFunction`
initializers are recognized), so no `ParsedFunction` named `g` exists. -/
theorem C2_counterexample : parseFunctions funcExprVarFile = [] := by decide

/-- C2 (amended): for every exported top-level variable declaration whose
initializer is an arrow function, extraction produces a `ParsedFunction`
(of the same record shape as for named function declarations) whose name
is the variable's binding name; other anonymous function-expression
initializers are not extracted. -/
theorem C2_arrow_binding (sf : SourceFileNode) (s : VariableStatementNode)
    (d : VarDeclNode) (a : ArrowFunctionNode)
    (hmem : TopLevelStmt.variableStatement s ∈ sf.statements)
    (hexp : s.isExported = true) (hd : d ∈ s.decls)
    (hinit : d.init = Initializer.arrow a) :
    parseArrowFunction s d a ∈ parseFunctions sf
    ∧ (parseArrowFunction s d a).name = d.name
    ∧ (parseArrowFunction s d a).kind = "function" := by
  refine ⟨?_, rfl, rfl⟩
  rw [parseFunctions]
  apply List.mem_append_right
  apply List.mem_filterMap.mpr
  refine ⟨(s, d), ?_, ?_⟩
  · rw [getVariableDeclarations]
    apply List.mem_flatMap.mpr
    refine ⟨s, ?_, ?_⟩
    · exact List.mem_filterMap.mpr ⟨TopLevelStmt.variableStatement s, hmem, rfl⟩
    · exact List.mem_map.mpr ⟨d, hd, rfl⟩
  · simp [hexp, hinit]

/-- Witness for C2: the concrete exported arrow binding `f` of `c2File`
is extracted as a `ParsedFunction` named `f`. -/
theorem C2_arrow_binding_witness :
    parseArrowFunction c2VarStmt c2VarDecl c2Arrow ∈ parseFunctions c2File
    ∧ (parseArrowFunction c2VarStmt c2VarDecl c2Arrow).name = c2VarDecl.name
    ∧ (parseArrowFunction c2VarStmt c2VarDecl c2Arrow).kind = "function" :=
  C2_arrow_binding c2File c2VarStmt c2VarDecl c2Arrow (by decide) (by decide)
    (by decide) (by decide)

/-- C3 counterexample: for the single function `f` of `c3File`, the
resolved display name is `f`, but the rendered level-2 heading line is
`## f()` and the table-of-contents entry is `- [f()](#f)` — the heading
text and the link text are the display name with `()` appended, not
exactly the display name. -/
theorem C3_counterexample :
    getDisplayName "f" (basename "a.ts") (duplicateNamesOf [c3File]) = "f"
    ∧ (generateMarkdownLines [c3File] {})[10]? = some "## f()"
    ∧ (generateMarkdownLines [c3File] {})[6]? = some "- [f()](#f)"
    ∧ "## f()" ≠ "## f"
    ∧ "- [f()](#f)" ≠ "- [f](#f)" := by decide

/-- C3 (amended): for every rendered function the level-2 heading text is
the Collision Resolver's display name followed by `()`, and each
table-of-contents entry is a markdown link whose text is the display name
followed by `()` and whose target is the item's anchor. -/
theorem C3_function_heading (fn : ParsedFunction) (fp : String)
    (opts : GeneratorOptions) :
    (generateMarkdownLines
        [{ filePath := fp, interfaces := [], typeAliases := [], functions := [fn] }]
        opts)[6]?
      = some ("- [" ++ fn.name ++ "()](#" ++ toAnchor fn.name ++ ")")
    ∧ (generateMarkdownLines
        [{ filePath := fp, interfaces := [], typeAliases := [], functions := [fn] }]
        opts)[10]?
      = some ("## " ++ fn.name ++ "()")
    ∧ (∀ sourceFile duplicates, (generateFunction fn sourceFile duplicates).head?
        = some ("## " ++ getDisplayName fn.name sourceFile duplicates ++ "()"))
    ∧ (∀ name sourceFile duplicates, tocFunctionLinkLine name sourceFile duplicates
        = "- [" ++ getDisplayName name sourceFile duplicates ++ "()](#"
          ++ getAnchor name sourceFile duplicates ++ ")") :=
  ⟨rfl, rfl, fun _ _ => rfl, fun _ _ _ => rfl⟩

/-- C4 counterexample: the distinct files `a/config.ts` and `b/config.ts`
share the base name `config.ts`; pooling them makes `Config` a duplicate,
and the two occurrences receive the SAME display label
`Config (config.ts)` and the SAME anchor `config-config-ts`, so distinct
occurrences of a duplicated name need not have distinct labels or
anchors. -/
theorem C4_counterexample :
    duplicateNamesOf [c4FileA, c4FileB] = ["Config"]
    ∧ basename c4FileA.filePath = basename c4FileB.filePath
    ∧ c4FileA.filePath ≠ c4FileB.filePath
    ∧ getDisplayName "Config" (basename c4FileA.filePath)
        (duplicateNamesOf [c4FileA, c4FileB])
      = getDisplayName "Config" (basename c4FileB.filePath)
        (duplicateNamesOf [c4FileA, c4FileB])
    ∧ getAnchor "Config" (basename c4FileA.filePath)
        (duplicateNamesOf [c4FileA, c4FileB])
      = getAnchor "Config" (basename c4FileB.filePath)
        (duplicateNamesOf [c4FileA, c4FileB])
    ∧ getDisplayName "Config" (basename c4FileA.filePath)
        (duplicateNamesOf [c4FileA, c4FileB]) = "Config (config.ts)" := by decide

/-- C4 (amended): an occurrence of a name appearing more than once in the
pooled name list is displayed as `name (fileBaseName)` with anchor built
from `name-fileBaseName`; two occurrences of the same duplicated name
have distinct display labels exactly when their base names differ
(occurrences from files with equal base names coincide); a name occurring
at most once uses the bare name for display and anchor. -/
theorem C4_duplicate_disambiguation (names : List String) (name b1 b2 : String) :
    getDisplayName name b1 (findDuplicateNames names)
      = (if 2 ≤ occurrenceCount name names then name ++ " (" ++ b1 ++ ")" else name)
    ∧ getAnchor name b1 (findDuplicateNames names)
      = (if 2 ≤ occurrenceCount name names then toAnchor (name ++ "-" ++ b1)
        else toAnchor name)
    ∧ (getDisplayName name b1 (findDuplicateNames names)
        = getDisplayName name b2 (findDuplicateNames names)
      ↔ (b1 = b2 ∨ occurrenceCount name names ≤ 1)) := by
  have hmem := mem_findDuplicateNames names name
  by_cases h : 2 ≤ occurrenceCount name names
  · have hm : name ∈ findDuplicateNames names := hmem.mpr h
    refine ⟨?_, ?_, ?_⟩
    · simp only [getDisplayName]
      rw [if_pos hm, if_pos h]
    · simp only [getAnchor]
      rw [if_pos hm, if_pos h]
    · simp only [getDisplayName]
      rw [if_pos hm, if_pos hm, displayName_suffix_inj]
      constructor
      · intro h'; exact Or.inl h'
      · rintro (h' | h')
        · exact h'
        · omega
  · have hm : name ∉ findDuplicateNames names := fun hmm => h (hmem.mp hmm)
    refine ⟨?_, ?_, ?_⟩
    · simp only [getDisplayName]
      rw [if_neg hm, if_neg h]
    · simp only [getAnchor]
      rw [if_neg hm, if_neg h]
    · simp only [getDisplayName]
      rw [if_neg hm, if_neg hm]
      constructor
      · intro _; right; omega
      · intro _; rfl

/-- C5: anchor generation lower-cases its input and replaces every
maximal run of characters outside `[a-z0-9]` with a single hyphen (every
output character is in `[a-z0-9-]` and no two hyphens are adjacent); two
files each exporting an interface `Config` yield display names
`Config (a.ts)` / `Config (b.ts)` with anchors `config-a-ts` /
`config-b-ts`, while a single file exporting `Config` alone yields
display name `Config` and anchor `config`. -/
theorem C5_anchor_normalization (s : String) :
    getDisplayName "Config" (basename "a.ts") (duplicateNamesOf c5FilesTwo)
      = "Config (a.ts)"
    ∧ getDisplayName "Config" (basename "b.ts") (duplicateNamesOf c5FilesTwo)
      = "Config (b.ts)"
    ∧ getAnchor "Config" (basename "a.ts") (duplicateNamesOf c5FilesTwo) = "config-a-ts"
    ∧ getAnchor "Config" (basename "b.ts") (duplicateNamesOf c5FilesTwo) = "config-b-ts"
    ∧ getDisplayName "Config" (basename "a.ts") (duplicateNamesOf c5FilesOne) = "Config"
    ∧ getAnchor "Config" (basename "a.ts") (duplicateNamesOf c5FilesOne) = "config"
    ∧ toAnchor s = String.mk (sanitizeAux false (s.data.map Char.toLower))
    ∧ (∀ c ∈ (toAnchor s).data, isAnchorChar c = true ∨ c = '-')
    ∧ noDoubleHyphen (toAnchor s).data = true := by
  refine ⟨by decide, by decide, by decide, by decide, by decide, by decide, rfl, ?_, ?_⟩
  · intro c hc
    exact sanitizeAux_chars _ false c hc
  · exact (sanitizeAux_shape _ false).1

/-- C6: extraction of one file never aborts the run — a failed parse is
dropped from the merged result and surfaces exactly as one warning — and
the pipeline returns the terminal `EmptyResult` error precisely when no
file contributed any interface, type alias or function. -/
theorem C6_error_policy (results : List (Except String ParsedFile)) (title : String)
    (pre post : List (Except String ParsedFile)) (msg : String) :
    ((∃ e, runPipeline results title = Except.error e)
      ↔ ∀ r ∈ results, ∀ p, r = Except.ok p → ¬ contributesItems p)
    ∧ extractedFiles (pre ++ [Except.error msg] ++ post) = extractedFiles (pre ++ post)
    ∧ extractionWarnings (pre ++ [Except.error msg] ++ post)
      = extractionWarnings pre ++ ["Warning: Failed to parse: " ++ msg]
        ++ extractionWarnings post :=
  ⟨runPipeline_error_iff results title, extractedFiles_drop_error pre post msg,
    extractionWarnings_split pre post msg⟩

/-- C7: rendering is deterministic — two invocations of the renderer on
equal file lists and equal configurations produce equal markdown strings
(the embedding is a total function of its two arguments; the source
consults no clock, randomness or environment). -/
theorem C7_rendering_deterministic (files files' : List ParsedFile)
    (options options' : GeneratorOptions)
    (hf : files = files') (ho : options = options') :
    generateMarkdown files options = generateMarkdown files' options' := by
  subst hf
  subst ho
  rfl

/-- Witness for C7 at a concrete input. -/
theorem C7_rendering_deterministic_witness :
    generateMarkdown [c10Full] {} = generateMarkdown [c10Full] {} :=
  C7_rendering_deterministic [c10Full] [c10Full] {} {} rfl rfl

/-- C8: the resolved description of a declaration comes only from the
last attached JSDoc block — for any prefix of earlier blocks the result
is that block's trimmed summary — and it is absent when there are no
blocks, the summary is missing, or it trims to the empty string. -/
theorem C8_description_selection (ds : List JSDoc) (d : JSDoc) :
    getJsDocDescriptionFromDocs [] = none
    ∧ getJsDocDescriptionFromDocs (ds ++ [d])
      = (match d.description with
        | none => none
        | some s => if jsTrim s = "" then none else some (jsTrim s)) := by
  refine ⟨rfl, ?_⟩
  rw [getJsDocDescriptionFromDocs, List.getLast?_concat]

/-- C9 counterexample: for the `@param x -count` tag of `c9Doc` the
comment text `-count` is already trimmed and has no leading `"- "`
(there is no space after the hyphen), so under the claim the stored
description would be `-count`; the code stores `count`, because it
strips `/^-\s*/` — a hyphen followed by any (possibly empty) whitespace
run. -/
theorem C9_counterexample :
    mapGet (extractParamDescriptions [c9Doc]) "x" = some "count"
    ∧ jsTrim "-count" = "-count"
    ∧ "count" ≠ "-count" := by decide

/-- C9 (amended): the parameter-description map built from the last JSDoc
block has an entry exactly for the names of its parameter tags with a
non-empty dot-free name and non-empty trimmed comment text; the stored
description is the trimmed comment text with one leading hyphen and any
whitespace following it stripped (the tag appearing last wins); with no
blocks the map is empty. -/
theorem C9_param_map (jsDocs : List JSDoc) (d : JSDoc) (k : String) :
    mapGet (extractParamDescriptions (jsDocs ++ [d])) k = lastQualifyingValue k d.tags
    ∧ ((mapGet (extractParamDescriptions (jsDocs ++ [d])) k).isSome = true
      ↔ ∃ t ∈ d.tags, qualifiesParamTag t ∧ t.name = k)
    ∧ extractParamDescriptions [] = [] := by
  refine ⟨extractParamDescriptions_last jsDocs d k, ?_, rfl⟩
  rw [extractParamDescriptions_last jsDocs d k]
  exact lastQualifyingValue_isSome k d.tags

/-- C10: a file that parses successfully but has no exported interface,
type alias or function is dropped before rendering — removing it from
the input leaves the pipeline result (collision resolution and output
included) unchanged — and the `EmptyResult` error occurs precisely when
every file either failed to parse or contributed nothing, even if all
parses succeeded. -/
theorem C10_empty_file_dropped (pre post : List (Except String ParsedFile))
    (p : ParsedFile) (title : String) (h : ¬ contributesItems p) :
    runPipeline (pre ++ [Except.ok p] ++ post) title = runPipeline (pre ++ post) title
    ∧ ((∃ e, runPipeline (pre ++ post) title = Except.error e)
      ↔ ∀ r ∈ pre ++ post, ∀ q, r = Except.ok q → ¬ contributesItems q) := by
  constructor
  · rw [runPipeline, runPipeline, extractedFiles_drop_empty pre post p h]
  · exact runPipeline_error_iff (pre ++ post) title

/-- Witness for C10: dropping the concrete empty file `empty.ts` leaves
the pipeline result unchanged. -/
theorem C10_empty_file_dropped_witness :
    runPipeline (([] : List (Except String ParsedFile))
        ++ [Except.ok c10Empty] ++ [Except.ok c10Full]) "T"
      = runPipeline (([] : List (Except String ParsedFile)) ++ [Except.ok c10Full]) "T"
    ∧ ((∃ e, runPipeline (([] : List (Except String ParsedFile))
        ++ [Except.ok c10Full]) "T" = Except.error e)
      ↔ ∀ r ∈ ([] : List (Except String ParsedFile)) ++ [Except.ok c10Full],
          ∀ q, r = Except.ok q → ¬ contributesItems q) :=
  C10_empty_file_dropped [] [Except.ok c10Full] c10Empty "T" (by decide)

end TypesNotDocs
